import Mathlib

/-!
Verification of the section-generation orchestrator of the research-assistant
backend (`src/services/generationService.js`) against its specification.

The JavaScript code is shallowly embedded: the orchestrator's effects
(status updates, draft writes, event emissions, model calls) become an
explicit action trace; the external model client is an environment giving,
per section index, the eventual settlement of that section's model call and
the time at which it settles (`none` = never settles).  `Promise.race`
against the 5-minute timer is embedded as a comparison of the settle time
with the timeout constant.  The batch loop (`for i += CONCURRENCY` with
`Promise.all`) is embedded by chunking the enumerated section mapping;
within a batch the linear trace lists each section's actions in batch order,
and the start/finish interleaving semantics of a batch is modelled
separately by the schedule functions at the end of the definitions.

Helper modules `promptBuilder.js` and `responseParser.js` are not part of
the available sources; the definitions for them below are modelled from the
spec and marked as such.  Prompts are embedded as data recording exactly the
arguments the orchestrator passes to the prompt builders.
-/

namespace GenService

/-- A citation record attached to a source document (`doc.references[k]`). -/
structure RefRecord where
  id : String
  authors : List String
  title : String
  year : Option Nat
  journal : Option String
  doi : Option String
  rawText : Option String
deriving DecidableEq, Repr

/-- `document.extracted_content`: a section-key → text mapping plus optional
full text.  A key mapped to `""` stands for a section whose `.text` is
absent or empty (both are falsy in the JavaScript guard `sections[key]?.text`). -/
structure ExtractedContent where
  sections : List (String × String)
  fullText : Option String
deriving DecidableEq, Repr

/-- A source document as consumed by the orchestrator. -/
structure SourceDocument where
  id : String
  filename : String
  extracted_content : Option ExtractedContent
  references : List RefRecord
  metadataTitle : Option String
  metadataAuthors : List String
deriving DecidableEq, Repr

/-- `sectionConfig.sourceMapping`. -/
structure SourceMapping where
  sourceSections : Option (List String)
  sourceDocuments : List String
deriving DecidableEq, Repr

/-- One entry of a project's `section_mapping`. -/
structure SectionConfig where
  templateSectionId : String
  templateSectionTitle : String
  sourceMapping : SourceMapping
  instructions : Option String
  targetLength : Option Nat
deriving DecidableEq, Repr

/-- A project as destructured by `generateProjectContent`. -/
structure Project where
  id : String
  mode : String
  purpose : String
  documents : List SourceDocument
  section_mapping : List SectionConfig
  global_instructions : Option String
deriving DecidableEq, Repr

/-- Lookup of `sections[key]` in the extracted-content mapping. -/
def lookupSection (sections : List (String × String)) (key : String) : Option String :=
  (sections.find? (fun kv => kv.1 = key)).map (fun kv => kv.2)

/-- `extractSourceContent(document, sectionKeys)` (generationService.js:336-359):
collect the text of the requested section keys; with no keys, or when no
requested key has text, fall back to `extracted_content?.fullText || ''`. -/
def extractSourceContent (document : SourceDocument) (sectionKeys : Option (List String)) :
    String :=
  let sections := (document.extracted_content.map (·.sections)).getD []
  let fullTextOrEmpty := ((document.extracted_content.map (·.fullText)).getD none).getD ""
  match sectionKeys with
  | none => fullTextOrEmpty
  | some keys =>
    if keys.length = 0 then fullTextOrEmpty
    else
      let contents := keys.filterMap (fun key =>
        match lookupSection sections key with
        | some t => if t = "" then none else some t
        | none => none)
      if contents.length = 0 then fullTextOrEmpty
      else String.intercalate "\n\n" contents

/-- JavaScript `String.prototype.trim`, embedded on the character list. -/
def jsTrim (s : String) : String :=
  String.mk (((s.data.dropWhile Char.isWhitespace).reverse.dropWhile Char.isWhitespace).reverse)

/-- Modelled from the spec: `truncateForContext(text, maxChars)` from
`promptBuilder.js` (not among the available sources) — head-truncation to
`maxChars` characters with a `truncated` flag. -/
def truncateForContext (text : String) (maxChars : Nat) : String × Bool :=
  if text.length > maxChars then (String.mk (text.data.take maxChars), true)
  else (text, false)

/-- One `{title, authors, content}` entry passed to the multi-document
prompt builders. -/
structure DocContent where
  title : String
  authors : List String
  content : String
deriving DecidableEq, Repr

/-- The argument records the orchestrator passes to the prompt builders
(`buildSectionRewritePrompt`, `buildMultiDocumentSynthesisPrompt`,
`buildComparativeAnalysisPrompt`).  The builders themselves live in
`promptBuilder.js` (not among the available sources); per the spec they are
pure template assembly over exactly these arguments, so a prompt is embedded
as the argument record itself. -/
inductive Prompt where
  | sectionRewrite (sectionTitle sourceContent : String)
      (instructions globalInstructions : Option String)
      (targetLength : Option Nat) (purpose : String)
  | multiDocSynthesis (sectionTitle : String) (documents : List DocContent)
      (instructions globalInstructions : Option String)
      (targetLength : Option Nat) (purpose : String)
  | comparative (sectionTitle : String) (documents : List DocContent)
      (instructions globalInstructions : Option String)
deriving DecidableEq, Repr

/-- The source contents carried by a prompt (what the builder receives). -/
def Prompt.sourceContents : Prompt → List String
  | .sectionRewrite _ c _ _ _ _ => [c]
  | .multiDocSynthesis _ docs _ _ _ _ => docs.map (·.content)
  | .comparative _ docs _ _ => docs.map (·.content)

/-- Parsed model response: `{success, content, warnings}`. -/
structure ParsedResult where
  success : Bool
  content : String
  warnings : List String
deriving DecidableEq, Repr

/-- Modelled from the spec: `parseSectionContent(rawResponse, sectionTitle)`
from `responseParser.js` (not among the available sources) — success is
false when the response is empty or whitespace; on failure the content is a
marked placeholder and a warning is attached; never raises. -/
def parseSectionContent (rawResponse : String) (sectionTitle : String) : ParsedResult :=
  if jsTrim rawResponse = "" then
    ⟨false, "[No content generated for " ++ sectionTitle ++ "]", ["Empty model response"]⟩
  else ⟨true, rawResponse, []⟩

/-- Modelled from the spec: `parseMultiDocResponse(rawResponse, expectedDocCount)`
from `responseParser.js` (not among the available sources) — same contract
as `parseSectionContent`, plus a heuristic warning when the response does
not appear to cover the expected number of sources. -/
def parseMultiDocResponse (rawResponse : String) (expectedDocCount : Nat) : ParsedResult :=
  if jsTrim rawResponse = "" then
    ⟨false, "[No content generated]", ["Empty model response"]⟩
  else if rawResponse.length < expectedDocCount then
    ⟨true, rawResponse, ["Response may not cover all source documents"]⟩
  else ⟨true, rawResponse, []⟩

/-- One entry of a section result's `sourceRefs`. -/
structure SourceRef where
  documentId : String
  sections : Option (List String)
deriving DecidableEq, Repr

/-- The value a per-section generator resolves with. -/
structure SectionResult where
  success : Bool
  content : String
  warnings : List String
  sourceRefs : List SourceRef
deriving DecidableEq, Repr

/-- `generateSingleDocSection` (generationService.js:209-263).  The model
client is passed as a function giving the eventual settlement of
`generateContent(prompt)`; the second component lists the model calls made.
An `Except.error` is an exception propagating out of the generation promise. -/
def generateSingleDocSection (model : Prompt → Except String String)
    (sectionConfig : SectionConfig) (document : SourceDocument)
    (purpose : String) (globalInstructions : Option String) :
    Except String SectionResult × List Prompt :=
  let sourceContent := extractSourceContent document sectionConfig.sourceMapping.sourceSections
  if (jsTrim sourceContent).length < 50 then
    (.ok ⟨false, "[Insufficient source content for this section]",
      ["No relevant content found in source document"], []⟩, [])
  else
    let tr := truncateForContext sourceContent 100000
    let prompt := Prompt.sectionRewrite sectionConfig.templateSectionTitle tr.1
      sectionConfig.instructions globalInstructions sectionConfig.targetLength purpose
    match model prompt with
    | .error e => (.error e, [prompt])
    | .ok response =>
      let parsed := parseSectionContent response sectionConfig.templateSectionTitle
      (.ok ⟨parsed.success, parsed.content,
        parsed.warnings ++ (if tr.2 then ["Source content was truncated due to length"] else []),
        [⟨document.id, sectionConfig.sourceMapping.sourceSections⟩]⟩, [prompt])

/-- `generateMultiDocSection` (generationService.js:268-331).  Note: unlike
the single-document path, the extracted content is passed to the prompt
builder without any truncation. -/
def generateMultiDocSection (model : Prompt → Except String String)
    (sectionConfig : SectionConfig) (documents : List SourceDocument)
    (purpose : String) (globalInstructions : Option String) :
    Except String SectionResult × List Prompt :=
  let docsToUse := if sectionConfig.sourceMapping.sourceDocuments.contains "all" then documents
    else documents.filter (fun d => sectionConfig.sourceMapping.sourceDocuments.contains d.id)
  let docContents := (docsToUse.map (fun doc =>
      DocContent.mk (doc.metadataTitle.getD doc.filename) doc.metadataAuthors
        (extractSourceContent doc sectionConfig.sourceMapping.sourceSections))
    ).filter (fun d => d.content.length > 50)
  if docContents.length = 0 then
    (.ok ⟨false, "[Insufficient source content across documents]",
      ["No relevant content found in source documents"], []⟩, [])
  else
    let prompt := if purpose = "comparative" then
        Prompt.comparative sectionConfig.templateSectionTitle docContents
          sectionConfig.instructions globalInstructions
      else
        Prompt.multiDocSynthesis sectionConfig.templateSectionTitle docContents
          sectionConfig.instructions globalInstructions sectionConfig.targetLength purpose
    match model prompt with
    | .error e => (.error e, [prompt])
    | .ok response =>
      let parsed := parseMultiDocResponse response docContents.length
      (.ok ⟨parsed.success, parsed.content, parsed.warnings,
        docsToUse.map (fun d => ⟨d.id, sectionConfig.sourceMapping.sourceSections⟩)⟩, [prompt])

/-- One entry of the aggregated reference list persisted onto the draft. -/
structure Reference where
  id : String
  index : Nat
  sourceDocumentId : String
  sourceRefId : String
  authors : List String
  title : String
  year : Option Nat
  journal : Option String
  doi : Option String
  formatted : String
deriving DecidableEq, Repr

/-- `formatReference(ref)` (generationService.js:394-401). -/
def formatReference (ref : RefRecord) : String :=
  let authors := if ref.authors.isEmpty then "Unknown" else String.intercalate ", " ref.authors
  let year := match ref.year with | some y => toString y | none => "n.d."
  let title := if ref.title = "" then "Untitled" else ref.title
  let journal := match ref.journal with | some j => ". " ++ j | none => ""
  authors ++ " (" ++ year ++ "). " ++ title ++ journal ++ "."

/-- One reference entry as built in `collectReferences`. -/
def mkReference (refIndex : Nat) (doc : SourceDocument) (ref : RefRecord) : Reference :=
  ⟨"ref_" ++ toString refIndex, refIndex, doc.id, ref.id, ref.authors, ref.title,
    ref.year, ref.journal, ref.doi, (ref.rawText.getD (formatReference ref))⟩

/-- The inner loop of `collectReferences` over one document's references. -/
def collectDocRefs (refIndex : Nat) (doc : SourceDocument) : List RefRecord → List Reference
  | [] => []
  | ref :: rest => mkReference refIndex doc ref :: collectDocRefs (refIndex + 1) doc rest

/-- The outer loop of `collectReferences` over the documents. -/
def collectRefsFrom (refIndex : Nat) : List SourceDocument → List Reference
  | [] => []
  | doc :: docs =>
    collectDocRefs refIndex doc doc.references ++
      collectRefsFrom (refIndex + doc.references.length) docs

/-- `collectReferences(documents)` (generationService.js:364-389): flat
aggregation of every document's references in document order, numbering
`refIndex` from 1. -/
def collectReferences (documents : List SourceDocument) : List Reference :=
  collectRefsFrom 1 documents

/-- The per-section timeout (generationService.js:69): 5 minutes in ms. -/
def TIMEOUT : Nat := 300000

/-- The concurrency limit (generationService.js:51). -/
def CONCURRENCY : Nat := 3

/-- The environment of one generation run: the external collaborators'
behaviour.  `respond i` is the eventual settlement of section `i`'s
`generateContent` call, `settleTime i` the time (ms from the section's
start) at which it settles (`none` = the call never settles).
`createDraft` and `updateReferences` are the outcomes of the two store
operations that can make an exception escape the per-section handlers;
the remaining store writes are taken to succeed. -/
structure RunEnv where
  respond : Nat → Except String String
  settleTime : Nat → Option Nat
  createDraft : Except String String
  updateReferences : Except String Unit

/-- `{section, error}` entries of the run's error list. -/
structure SectionError where
  «section» : String
  error : String
deriving DecidableEq, Repr

/-- Events emitted on the `generationEvents` bus. -/
inductive Event where
  | progress (projectId : String) (totalSections completedSections : Nat)
      (currentSection : Option String)
  | sectionComplete (projectId sectionId sectionTitle preview : String) (success : Bool)
  | error (projectId : String) (sectionTitle : Option String) (error : String)
      (recoverable : Bool)
  | complete (projectId draftId status : String) (sectionsGenerated : Nat)
      (errors : List SectionError)
deriving DecidableEq, Repr

/-- The payload of one `updateDraftSection` call. -/
structure DraftSectionWrite where
  templateSectionId : String
  templateSectionTitle : String
  content : String
  sourceRefs : List SourceRef
  warnings : List String
deriving DecidableEq, Repr

/-- The observable actions of a run, in trace order. -/
inductive Action where
  | statusUpdate (status : String) (totalSections completedSections : Option Nat)
      (currentSection : Option String) (errors : List SectionError)
      (errorMsg : Option String)
  | draftCreate (draftId : String)
  | draftSectionWrite (draftId : String) (write : DraftSectionWrite)
  | draftReferencesWrite (draftId : String) (references : List Reference)
  | modelCall (sectionIndex : Nat) (prompt : Prompt)
  | emit (event : Event)
deriving DecidableEq, Repr

/-- One entry of `results.sections`. -/
structure SectionRecord where
  sectionId : String
  sectionTitle : String
  success : Bool
  wordCount : Nat
deriving DecidableEq, Repr

/-- `sectionResult.content?.split(/\s+/).length || 0`. -/
def wordCount (s : String) : Nat := (s.split (fun c => c.isWhitespace)).length

/-- The mutable `results` accumulator of a run. -/
structure RunState where
  sections : List SectionRecord
  errors : List SectionError
  warnings : List String
deriving DecidableEq, Repr

/-- The value `generateProjectContent` resolves with. -/
structure RunResults where
  draftId : String
  sections : List SectionRecord
  errors : List SectionError
  warnings : List String
deriving DecidableEq, Repr

/-- The generation promise of section `i` (generationService.js:72-88):
single-document mode uses `documents[0]` (an exception when there is no
document), multi-document mode uses all documents.  Returns the promise's
eventual settlement and the list of model calls made. -/
def runSectionGeneration (env : RunEnv) (p : Project) (sectionConfig : SectionConfig)
    (i : Nat) : Except String SectionResult × List Prompt :=
  if p.mode = "single" then
    match p.documents with
    | [] => (.error "Cannot read properties of undefined", [])
    | document :: _ =>
      generateSingleDocSection (fun _ => env.respond i) sectionConfig document
        p.purpose p.global_instructions
  else
    generateMultiDocSection (fun _ => env.respond i) sectionConfig p.documents
      p.purpose p.global_instructions

/-- `Promise.race([generationPromise, timeoutPromise])`
(generationService.js:67-90): when a model call was made and it has not
settled before the 5-minute timer fires, the race rejects with
"Generation timed out" and the call's eventual settlement is ignored;
otherwise the race settles like the generation promise (a section that
makes no model call settles immediately). -/
def sectionRaced (env : RunEnv) (p : Project) (sectionConfig : SectionConfig) (i : Nat) :
    Except String SectionResult :=
  let gen := runSectionGeneration env p sectionConfig i
  if gen.2.isEmpty then gen.1
  else
    match env.settleTime i with
    | some t => if t < TIMEOUT then gen.1 else .error "Generation timed out"
    | none => .error "Generation timed out"

/-- The `"Processing... (c/L)"` label of the finally-block status update. -/
def processingLabel (c L : Nat) : String :=
  "Processing... (" ++ toString c ++ "/" ++ toString L ++ ")"

/-- `processSection(sectionConfig, index)` (generationService.js:52-154),
linearized: progress event, model call, then either the success path
(draft write, `results.sections` push, section-complete event, warnings
push) or the catch path (`results.errors` push, recoverable error event,
placeholder draft write), then the finally-block status update. -/
def processSection (env : RunEnv) (p : Project) (draftId : String) (st : RunState)
    (sectionConfig : SectionConfig) (i : Nat) : RunState × List Action :=
  let sectionTitle := sectionConfig.templateSectionTitle
  let L := p.section_mapping.length
  let progressEv := Action.emit (.progress p.id L st.sections.length (some sectionTitle))
  let callActs := (runSectionGeneration env p sectionConfig i).2.map
    (fun prompt => Action.modelCall i prompt)
  match sectionRaced env p sectionConfig i with
  | .ok sectionResult =>
    let writeAct := Action.draftSectionWrite draftId
      ⟨sectionConfig.templateSectionId, sectionTitle, sectionResult.content,
        sectionResult.sourceRefs, sectionResult.warnings⟩
    let st1 : RunState := { st with
      sections := st.sections ++
        [⟨sectionConfig.templateSectionId, sectionTitle, sectionResult.success,
          wordCount sectionResult.content⟩] }
    let completeEv := Action.emit (.sectionComplete p.id sectionConfig.templateSectionId
      sectionTitle (sectionResult.content.take 200) sectionResult.success)
    let st2 : RunState := if 0 < sectionResult.warnings.length then
        { st1 with warnings := st1.warnings ++
          sectionResult.warnings.map (fun w => sectionTitle ++ ": " ++ w) }
      else st1
    let finallyAct := Action.statusUpdate "generating" (some L) (some st2.sections.length)
      (some (processingLabel st2.sections.length L)) st2.errors none
    (st2, [progressEv] ++ callActs ++ [writeAct, completeEv, finallyAct])
  | .error msg =>
    let st1 : RunState := { st with errors := st.errors ++ [⟨sectionTitle, msg⟩] }
    let errorEv := Action.emit (.error p.id (some sectionTitle) msg true)
    let placeholderAct := Action.draftSectionWrite draftId
      ⟨sectionConfig.templateSectionId, sectionTitle,
        "[Generation failed: " ++ msg ++ ". Please edit manually.]", [], [msg]⟩
    let finallyAct := Action.statusUpdate "generating" (some L) (some st1.sections.length)
      (some (processingLabel st1.sections.length L)) st1.errors none
    (st1, [progressEv] ++ callActs ++ [errorEv, placeholderAct, finallyAct])

/-- Enumerate a list with indices starting at `n` (the `index` argument of
`processSection` is the section's position in the mapping). -/
def enumFrom : Nat → List α → List (Nat × α)
  | _, [] => []
  | n, x :: xs => (n, x) :: enumFrom (n + 1) xs

/-- Consecutive chunks of size `k` (the batch slices
`section_mapping.slice(i, i + CONCURRENCY)` of generationService.js:157-158). -/
def chunksOf (k : Nat) : List α → List (List α)
  | [] => []
  | x :: xs => (x :: xs.take (k - 1)) :: chunksOf k (xs.drop (k - 1))
termination_by l => l.length
decreasing_by
  simp only [List.length_cons, List.length_drop]
  exact Nat.lt_succ_of_le (Nat.sub_le _ _)

/-- Sequential linearization of the sections of one run, in mapping order. -/
def processList (env : RunEnv) (p : Project) (draftId : String) :
    RunState → List (Nat × SectionConfig) → RunState × List Action
  | st, [] => (st, [])
  | st, (i, sectionConfig) :: rest =>
    let step := processSection env p draftId st sectionConfig i
    let restRun := processList env p draftId step.1 rest
    (restRun.1, step.2 ++ restRun.2)

/-- The batch loop of generationService.js:157-160: process the chunks of
the enumerated mapping in order (each batch's sections linearized in batch
order; the start/finish interleaving of a batch is modelled by the
schedule functions below). -/
def runBatches (env : RunEnv) (p : Project) (draftId : String) :
    RunState → List (List (Nat × SectionConfig)) → RunState × List Action
  | st, [] => (st, [])
  | st, batch :: rest =>
    let step := processList env p draftId st batch
    let restRun := runBatches env p draftId step.1 rest
    (restRun.1, step.2 ++ restRun.2)

/-- `generateProjectContent(project, userId)` (generationService.js:27-204):
status to `generating`, draft creation (outside the try block — its failure
escapes without the rollback), the batch loop, reference aggregation and
persistence, status to `ready` plus the `complete` event; on an exception
escaping the try block, rollback to `draft`, a non-recoverable error event,
and the exception re-raised (`Except.error`). -/
def generateProjectContent (env : RunEnv) (p : Project) :
    Except String RunResults × List Action :=
  let L := p.section_mapping.length
  let a0 := Action.statusUpdate "generating" (some L) (some 0) none [] none
  match env.createDraft with
  | .error e => (.error e, [a0])
  | .ok draftId =>
    let body := runBatches env p draftId ⟨[], [], []⟩
      (chunksOf CONCURRENCY (enumFrom 0 p.section_mapping))
    match env.updateReferences with
    | .error e =>
      (.error e,
        [a0, .draftCreate draftId] ++ body.2 ++
          [Action.statusUpdate "draft" none none none [] (some e),
            Action.emit (.error p.id none e false)])
    | .ok _ =>
      (.ok ⟨draftId, body.1.sections, body.1.errors, body.1.warnings⟩,
        [a0, .draftCreate draftId] ++ body.2 ++
          [Action.draftReferencesWrite draftId (collectReferences p.documents),
            Action.statusUpdate "ready" (some L) (some L) none body.1.errors none,
            Action.emit (.complete p.id draftId "ready" body.1.sections.length
              body.1.errors)])

/-! ### Batch schedule and timing model

The JavaScript batch loop awaits `Promise.all` over each batch: every
section of a batch runs its synchronous start segment (progress event,
extraction, prompt build, model-call initiation) during the `batch.map`
call, before any section of the batch can complete, and the loop reaches
the next batch only after every promise of the current batch has settled.
A run's schedule is therefore: for each batch in order, the starts of its
sections (in batch order) followed by their finishes (in an unspecified
order, parametrized below by a permutation). -/

/-- Start/finish marks of the sections of a run, by mapping index. -/
inductive SchedEvent where
  | start (i : Nat)
  | finish (i : Nat)
deriving DecidableEq, Repr

/-- The batches of a run of `L` sections, as lists of mapping indices. -/
def batchIndices (L : Nat) : List (List Nat) :=
  chunksOf CONCURRENCY (List.range L)

/-- The start/finish schedule of a run, given a per-batch completion order
`sigma` (constrained to a permutation in the theorems). -/
def scheduleOf (sigma : List Nat → List Nat) (L : Nat) : List SchedEvent :=
  (batchIndices L).flatMap (fun b => b.map .start ++ (sigma b).map .finish)

/-- Number of `start` marks in a schedule segment. -/
def countStarts (tr : List SchedEvent) : Nat :=
  tr.countP (fun e => match e with | .start _ => true | .finish _ => false)

/-- Number of `finish` marks in a schedule segment. -/
def countFinishes (tr : List SchedEvent) : Nat :=
  tr.countP (fun e => match e with | .start _ => false | .finish _ => true)

/-- The wall-clock duration of one section, measured from its batch's
start: a section that makes no model call settles immediately; one whose
call settles at `t` takes `min t TIMEOUT` (the 5-minute timer caps the
wait); one whose call never settles takes exactly `TIMEOUT`. -/
def sectionDuration (env : RunEnv) (p : Project) (pair : Nat × SectionConfig) : Nat :=
  if (runSectionGeneration env p pair.2 pair.1).2.isEmpty then 0
  else
    match env.settleTime pair.1 with
    | some t => min t TIMEOUT
    | none => TIMEOUT

/-- `Promise.all` makes a batch last as long as its slowest section. -/
def batchDuration (env : RunEnv) (p : Project) (batch : List (Nat × SectionConfig)) : Nat :=
  (batch.map (sectionDuration env p)).foldr max 0

/-- Absolute finish time of a section, given the batches preceding its own:
its batch starts when all earlier batches have finished, and the section
finishes its own duration later — independent of its batch siblings. -/
def sectionFinishTime (env : RunEnv) (p : Project)
    (earlierBatches : List (List (Nat × SectionConfig))) (pair : Nat × SectionConfig) : Nat :=
  (earlierBatches.map (batchDuration env p)).sum + sectionDuration env p pair

/-! ### Trace observations -/

/-- A status update whose status is terminal for the run: `ready`, or the
rollback to `draft`. -/
def isTerminalStatus : Action → Bool
  | .statusUpdate s _ _ _ _ _ => s = "ready" || s = "draft"
  | _ => false

/-- Is the action a draft-section write? -/
def isSectionWrite : Action → Bool
  | .draftSectionWrite _ _ => true
  | _ => false

/-- Number of draft-section writes in a trace. -/
def countSectionWrites (tr : List Action) : Nat := tr.countP isSectionWrite

/-- Number of draft-section writes occurring after the first terminal
status update of a trace (0 when there is no terminal update). -/
def writesAfterTerminal : List Action → Nat
  | [] => 0
  | a :: rest =>
    if isTerminalStatus a then countSectionWrites rest else writesAfterTerminal rest

/-- Every persisted progress update carrying both counters satisfies
`completedSections ≤ totalSections`. -/
def progressOk : Action → Bool
  | .statusUpdate _ (some total) (some completed) _ _ _ => completed ≤ total
  | _ => true

/-- The `complete` events of a trace. -/
def completeEvents (tr : List Action) : List Event :=
  tr.filterMap (fun a =>
    match a with
    | .emit (.complete pid did s n errs) => some (.complete pid did s n errs)
    | _ => none)

/-- The model-call prompts of a trace. -/
def modelCallPrompts (tr : List Action) : List Prompt :=
  tr.filterMap (fun a =>
    match a with
    | .modelCall _ prompt => some prompt
    | _ => none)

/-- The error entries the run accumulates over `items`, in order: one
`{section, error}` pair per section whose raced outcome is an error. -/
def erroredOf (env : RunEnv) (p : Project) (items : List (Nat × SectionConfig)) :
    List SectionError :=
  items.filterMap (fun pair =>
    match sectionRaced env p pair.2 pair.1 with
    | .error m => some ⟨pair.2.templateSectionTitle, m⟩
    | .ok _ => none)

/-- The number of sections of `items` whose raced outcome succeeds (each
pushes one entry onto `results.sections`). -/
def okCount (env : RunEnv) (p : Project) (items : List (Nat × SectionConfig)) : Nat :=
  items.countP (fun pair => (sectionRaced env p pair.2 pair.1).isOk)

/-- The `results.sections` entries the run accumulates over `items`: one
record per section whose raced outcome succeeds. -/
def recordsOf (env : RunEnv) (p : Project) (items : List (Nat × SectionConfig)) :
    List SectionRecord :=
  items.filterMap (fun pair =>
    match sectionRaced env p pair.2 pair.1 with
    | .ok r => some ⟨pair.2.templateSectionId, pair.2.templateSectionTitle, r.success,
        wordCount r.content⟩
    | .error _ => none)

/-! ## Auxiliary lemmas -/

theorem length_mk (l : List Char) : (String.mk l).length = l.length := rfl

theorem jsTrim_length_le (s : String) : (jsTrim s).length ≤ s.length := by
  show (String.mk _).length ≤ s.length
  rw [length_mk, List.length_reverse]
  calc ((s.data.dropWhile Char.isWhitespace).reverse.dropWhile Char.isWhitespace).length
      ≤ (s.data.dropWhile Char.isWhitespace).reverse.length :=
        (List.dropWhile_sublist _).length_le
    _ = (s.data.dropWhile Char.isWhitespace).length := List.length_reverse _
    _ ≤ s.data.length := (List.dropWhile_sublist _).length_le

theorem truncateForContext_length_le (text : String) (maxChars : Nat) :
    (truncateForContext text maxChars).1.length ≤ maxChars := by
  unfold truncateForContext
  split
  · rename_i h
    simp only [length_mk, List.length_take]
    omega
  · rename_i h
    simpa using Nat.le_of_not_lt h

/-- `extractSourceContent` with a non-empty key list none of whose keys has
text falls back to `extracted_content?.fullText || ''`. -/
theorem extractSourceContent_fallback (document : SourceDocument) (keys : List String)
    (hne : keys ≠ [])
    (hmiss : ∀ k ∈ keys, ∀ t,
      lookupSection ((document.extracted_content.map (·.sections)).getD []) k = some t →
        t = "") :
    extractSourceContent document (some keys) =
      ((document.extracted_content.map (·.fullText)).getD none).getD "" := by
  unfold extractSourceContent
  have hlen : ¬ keys.length = 0 := by
    simpa [List.length_eq_zero] using hne
  simp only [hlen, if_false]
  have hempty : (keys.filterMap (fun key =>
      match lookupSection ((document.extracted_content.map (·.sections)).getD []) key with
      | some t => if t = "" then none else some t
      | none => none)) = [] := by
    rw [List.filterMap_eq_nil_iff]
    intro k hk
    cases h : lookupSection ((document.extracted_content.map (·.sections)).getD []) k with
    | none => simp
    | some t =>
      have := hmiss k hk t h
      simp [this]
  simp [hempty]

/-! ## Claim theorems -/

/-- Claim C10: for every document and non-empty key list, if no key matches
an extracted section containing text, `extractSourceContent` returns the
document's full text (the empty string when `fullText` is absent), so the
section is generated from the entire document rather than short-circuiting. -/
theorem C10_no_matching_keys_falls_back_to_full_text
    (document : SourceDocument) (keys : List String)
    (hne : keys ≠ [])
    (hmiss : ∀ k ∈ keys, ∀ t,
      lookupSection ((document.extracted_content.map (·.sections)).getD []) k = some t →
        t = "") :
    extractSourceContent document (some keys) =
      ((document.extracted_content.map (·.fullText)).getD none).getD "" :=
  extractSourceContent_fallback document keys hne hmiss

theorem C10_witness :
    (["intro", "missing"] ≠ ([] : List String)) ∧
      extractSourceContent
        ⟨"d1", "f1", some ⟨[("intro", "")], some "FULL TEXT"⟩, [], none, []⟩
        (some ["intro", "missing"]) = "FULL TEXT" := by
  refine ⟨by decide, ?_⟩
  exact C10_no_matching_keys_falls_back_to_full_text
    ⟨"d1", "f1", some ⟨[("intro", "")], some "FULL TEXT"⟩, [], none, []⟩
    ["intro", "missing"] (by decide) (by decide)

theorem collectDocRefs_map_index (n : Nat) (doc : SourceDocument) (refs : List RefRecord) :
    (collectDocRefs n doc refs).map (·.index) = List.range' n refs.length := by
  induction refs generalizing n with
  | nil => simp [collectDocRefs]
  | cons r rest ih =>
    simp [collectDocRefs, mkReference, List.length_cons, List.range'_succ, ih]

theorem collectDocRefs_map_payload (n : Nat) (doc : SourceDocument) (refs : List RefRecord) :
    (collectDocRefs n doc refs).map (fun r => (r.sourceDocumentId, r.sourceRefId)) =
      refs.map (fun r => (doc.id, r.id)) := by
  induction refs generalizing n with
  | nil => simp [collectDocRefs]
  | cons r rest ih => simp [collectDocRefs, mkReference, ih]

theorem collectRefsFrom_map_index (n : Nat) (docs : List SourceDocument) :
    (collectRefsFrom n docs).map (·.index) =
      List.range' n ((docs.map (·.references.length)).sum) := by
  induction docs generalizing n with
  | nil => simp [collectRefsFrom]
  | cons doc docs ih =>
    have := List.range'_append n doc.references.length
      ((docs.map (·.references.length)).sum) 1
    simp only [collectRefsFrom, List.map_append, collectDocRefs_map_index, ih,
      List.map_cons, List.sum_cons]
    rw [Nat.add_comm doc.references.length ((docs.map (·.references.length)).sum)]
    simp only [Nat.one_mul] at this
    exact this

theorem collectRefsFrom_map_payload (n : Nat) (docs : List SourceDocument) :
    (collectRefsFrom n docs).map (fun r => (r.sourceDocumentId, r.sourceRefId)) =
      docs.flatMap (fun d => d.references.map (fun r => (d.id, r.id))) := by
  induction docs generalizing n with
  | nil => simp [collectRefsFrom]
  | cons doc docs ih =>
    simp [collectRefsFrom, collectDocRefs_map_payload, ih]

/-- Claim C8 (amended): the references persisted onto the draft are the flat
aggregation of all source documents' references in document order, with
sequential citation indices `1, 2, ..., N` — but they are NOT de-duplicated:
a citation record occurring in several documents yields one entry per
occurrence (see the counterexample). -/
theorem C8_references_flat_sequential_not_deduplicated (docs : List SourceDocument) :
    (collectReferences docs).map (·.index) =
        List.range' 1 ((docs.map (·.references.length)).sum) ∧
      (collectReferences docs).map (fun r => (r.sourceDocumentId, r.sourceRefId)) =
        docs.flatMap (fun d => d.references.map (fun r => (d.id, r.id))) :=
  ⟨collectRefsFrom_map_index 1 docs, collectRefsFrom_map_payload 1 docs⟩

/-- Claim C8 counterexample: two documents carrying the same citation record
produce two identical (apart from `id`/`index`/`sourceDocumentId`) entries in
the aggregated list — the list is not de-duplicated. -/
theorem C8_counterexample :
    (collectReferences
        [⟨"d1", "f1", none, [⟨"r1", ["A"], "T", some 2020, none, none, some "RAW"⟩],
            none, []⟩,
          ⟨"d2", "f2", none, [⟨"r1", ["A"], "T", some 2020, none, none, some "RAW"⟩],
            none, []⟩]).map
        (fun r => (r.sourceRefId, r.title, r.formatted)) =
      [("r1", "T", "RAW"), ("r1", "T", "RAW")] := by
  decide

/-- Claim C6 (amended): in single-document mode the extracted source content
is truncated to the 100,000-character ceiling before the prompt is built, so
the single-document prompt builder never receives source content longer
than 100,000 characters.  In multi-document mode, however, the extracted
content is passed to the prompt builder without truncation (see the
counterexample), so the 100,000-character guarantee holds only for the
single-document path. -/
theorem C6_single_doc_truncation_bound (model : Prompt → Except String String)
    (sectionConfig : SectionConfig) (document : SourceDocument)
    (purpose : String) (globalInstructions : Option String) :
    ∀ prompt ∈ (generateSingleDocSection model sectionConfig document
        purpose globalInstructions).2,
      ∀ s ∈ prompt.sourceContents, s.length ≤ 100000 := by
  intro prompt hp s hs
  unfold generateSingleDocSection at hp
  simp only [] at hp
  split at hp
  · simp at hp
  · split at hp <;>
    · simp only [List.mem_singleton] at hp
      subst hp
      simp only [Prompt.sourceContents, List.mem_singleton] at hs
      subst hs
      exact truncateForContext_length_le _ _

theorem C6_witness :
    (String.mk (List.replicate 60 'a')).length ≤ 100000 :=
  C6_single_doc_truncation_bound (fun _ => .ok "ok")
    ⟨"s1", "Title", ⟨none, []⟩, none, none⟩
    ⟨"d1", "f1", some ⟨[], some (String.mk (List.replicate 60 'a'))⟩, [], none, []⟩
    "summary" none
    (Prompt.sectionRewrite "Title" (String.mk (List.replicate 60 'a')) none none none
      "summary")
    (by decide) (String.mk (List.replicate 60 'a')) (by decide)

theorem multiDoc_fullText_untruncated (t : String) (h : 50 < t.length) :
    ((generateMultiDocSection (fun _ => .ok "ok")
          ⟨"s1", "Title", ⟨none, ["all"]⟩, none, none⟩
          [⟨"d1", "f1", some ⟨[], some t⟩, [], none, []⟩]
          "summary" none).2.map (fun pr => pr.sourceContents.map (·.length))) =
      [[t.length]] := by
  simp [generateMultiDocSection, extractSourceContent, Prompt.sourceContents, h]

/-- Claim C6 counterexample: a multi-document section whose (single) source
document holds 100,001 characters of full text hands the prompt builder a
document entry of content length 100,001 > 100,000 — no truncation happens
on the multi-document path. -/
theorem C6_counterexample :
    ((generateMultiDocSection (fun _ => .ok "ok")
          ⟨"s1", "Title", ⟨none, ["all"]⟩, none, none⟩
          [⟨"d1", "f1", some ⟨[], some (String.mk (List.replicate 100001 'x'))⟩, [],
            none, []⟩]
          "summary" none).2.map (fun pr => pr.sourceContents.map (·.length))) =
      [[100001]] := by
  have hlen : (String.mk (List.replicate 100001 'x')).length = 100001 := by
    rw [length_mk, List.length_replicate]
  rw [multiDoc_fullText_untruncated _ (by rw [hlen]; exact Nat.lt_of_sub_eq_succ rfl), hlen]

theorem mem_docsToUse {ids : List String} {docs : List SourceDocument} {d : SourceDocument}
    (hd : d ∈ (if ids.contains "all" then docs
      else docs.filter (fun d => ids.contains d.id))) : d ∈ docs := by
  split at hd
  · exact hd
  · exact (List.mem_filter.mp hd).1

/-- Claim C7: a section whose extracted source text is shorter than 50
characters short-circuits with an insufficient-content result
(`success = false`) and makes zero model calls — in single-document mode
when the one consulted document's extraction is short, in multi-document
mode when every document's extraction is short. -/
theorem C7_insufficient_content_short_circuits :
    (∀ (model : Prompt → Except String String) (sectionConfig : SectionConfig)
        (document : SourceDocument) (purpose : String) (globalInstructions : Option String),
      (extractSourceContent document sectionConfig.sourceMapping.sourceSections).length < 50 →
      generateSingleDocSection model sectionConfig document purpose globalInstructions =
        (.ok ⟨false, "[Insufficient source content for this section]",
          ["No relevant content found in source document"], []⟩, [])) ∧
    (∀ (model : Prompt → Except String String) (sectionConfig : SectionConfig)
        (documents : List SourceDocument) (purpose : String)
        (globalInstructions : Option String),
      (∀ d ∈ documents,
        (extractSourceContent d sectionConfig.sourceMapping.sourceSections).length < 50) →
      generateMultiDocSection model sectionConfig documents purpose globalInstructions =
        (.ok ⟨false, "[Insufficient source content across documents]",
          ["No relevant content found in source documents"], []⟩, [])) := by
  constructor
  · intro model sectionConfig document purpose globalInstructions h
    have htrim : (jsTrim (extractSourceContent document
        sectionConfig.sourceMapping.sourceSections)).length < 50 :=
      lt_of_le_of_lt (jsTrim_length_le _) h
    unfold generateSingleDocSection
    simp only []
    rw [if_pos htrim]
  · intro model sectionConfig documents purpose globalInstructions h
    unfold generateMultiDocSection
    simp only []
    have hfilter : (((if sectionConfig.sourceMapping.sourceDocuments.contains "all" then
          documents
        else documents.filter
          (fun d => sectionConfig.sourceMapping.sourceDocuments.contains d.id)).map
        (fun doc => DocContent.mk (doc.metadataTitle.getD doc.filename) doc.metadataAuthors
          (extractSourceContent doc sectionConfig.sourceMapping.sourceSections))).filter
        (fun d => d.content.length > 50)) = [] := by
      rw [List.filter_eq_nil_iff]
      intro x hx
      rcases List.mem_map.mp hx with ⟨doc, hdoc, rfl⟩
      have hshort := h doc (mem_docsToUse hdoc)
      simp only [decide_eq_true_eq]
      omega
    rw [hfilter]
    simp

theorem C7_witness :
    (generateSingleDocSection (fun _ => .ok "ok")
        ⟨"s1", "Title", ⟨none, []⟩, none, none⟩
        ⟨"d1", "f1", some ⟨[], some "short"⟩, [], none, []⟩ "summary" none =
      (.ok ⟨false, "[Insufficient source content for this section]",
        ["No relevant content found in source document"], []⟩, [])) ∧
    (generateMultiDocSection (fun _ => .ok "ok")
        ⟨"s1", "Title", ⟨none, ["all"]⟩, none, none⟩
        [⟨"d1", "f1", some ⟨[], some "short"⟩, [], none, []⟩] "summary" none =
      (.ok ⟨false, "[Insufficient source content across documents]",
        ["No relevant content found in source documents"], []⟩, [])) :=
  ⟨C7_insufficient_content_short_circuits.1 (fun _ => .ok "ok")
      ⟨"s1", "Title", ⟨none, []⟩, none, none⟩
      ⟨"d1", "f1", some ⟨[], some "short"⟩, [], none, []⟩ "summary" none (by decide),
    C7_insufficient_content_short_circuits.2 (fun _ => .ok "ok")
      ⟨"s1", "Title", ⟨none, ["all"]⟩, none, none⟩
      [⟨"d1", "f1", some ⟨[], some "short"⟩, [], none, []⟩] "summary" none (by decide)⟩

/-! ## Orchestrator characterization lemmas -/

theorem enumFrom_length (n : Nat) (l : List α) : (enumFrom n l).length = l.length := by
  induction l generalizing n with
  | nil => rfl
  | cons x xs ih => simp [enumFrom, ih]

theorem flatten_chunksOf (k : Nat) (l : List α) : (chunksOf k l).flatten = l := by
  generalize hn : l.length = n
  induction n using Nat.strong_induction_on generalizing l with
  | _ n ih =>
    cases l with
    | nil => simp [chunksOf]
    | cons x xs =>
      rw [chunksOf]
      have hlt : (xs.drop (k - 1)).length < n := by
        rw [List.length_drop]
        simp only [List.length_cons] at hn
        omega
      simp only [List.flatten_cons, ih _ hlt _ rfl, List.cons_append]
      rw [List.take_append_drop]

theorem processList_append (env : RunEnv) (p : Project) (draftId : String)
    (st : RunState) (l1 l2 : List (Nat × SectionConfig)) :
    processList env p draftId st (l1 ++ l2) =
      ((processList env p draftId (processList env p draftId st l1).1 l2).1,
        (processList env p draftId st l1).2 ++
          (processList env p draftId (processList env p draftId st l1).1 l2).2) := by
  induction l1 generalizing st with
  | nil => simp [processList]
  | cons hd tl ih =>
    cases hd with
    | mk i sectionConfig =>
      simp only [List.cons_append, processList, ih, List.append_assoc, List.append_eq]

theorem runBatches_eq_processList (env : RunEnv) (p : Project) (draftId : String)
    (st : RunState) (bs : List (List (Nat × SectionConfig))) :
    runBatches env p draftId st bs = processList env p draftId st bs.flatten := by
  induction bs generalizing st with
  | nil => simp [runBatches, processList]
  | cons b rest ih =>
    simp only [runBatches, List.flatten_cons, processList_append, ih]

theorem processSection_ok (env : RunEnv) (p : Project) (draftId : String) (st : RunState)
    (sectionConfig : SectionConfig) (i : Nat) (r : SectionResult)
    (h : sectionRaced env p sectionConfig i = .ok r) :
    processSection env p draftId st sectionConfig i =
      (⟨st.sections ++
          [⟨sectionConfig.templateSectionId, sectionConfig.templateSectionTitle, r.success,
            wordCount r.content⟩],
        st.errors,
        st.warnings ++ (if 0 < r.warnings.length then
          r.warnings.map (fun w => sectionConfig.templateSectionTitle ++ ": " ++ w)
          else [])⟩,
      [Action.emit (.progress p.id p.section_mapping.length st.sections.length
          (some sectionConfig.templateSectionTitle))] ++
        (runSectionGeneration env p sectionConfig i).2.map
          (fun prompt => Action.modelCall i prompt) ++
        [Action.draftSectionWrite draftId
            ⟨sectionConfig.templateSectionId, sectionConfig.templateSectionTitle,
              r.content, r.sourceRefs, r.warnings⟩,
          Action.emit (.sectionComplete p.id sectionConfig.templateSectionId
            sectionConfig.templateSectionTitle (r.content.take 200) r.success),
          Action.statusUpdate "generating" (some p.section_mapping.length)
            (some (st.sections.length + 1))
            (some (processingLabel (st.sections.length + 1) p.section_mapping.length))
            st.errors none]) := by
  simp only [processSection, h]
  split <;> simp

theorem processSection_err (env : RunEnv) (p : Project) (draftId : String) (st : RunState)
    (sectionConfig : SectionConfig) (i : Nat) (msg : String)
    (h : sectionRaced env p sectionConfig i = .error msg) :
    processSection env p draftId st sectionConfig i =
      (⟨st.sections, st.errors ++ [⟨sectionConfig.templateSectionTitle, msg⟩], st.warnings⟩,
      [Action.emit (.progress p.id p.section_mapping.length st.sections.length
          (some sectionConfig.templateSectionTitle))] ++
        (runSectionGeneration env p sectionConfig i).2.map
          (fun prompt => Action.modelCall i prompt) ++
        [Action.emit (.error p.id (some sectionConfig.templateSectionTitle) msg true),
          Action.draftSectionWrite draftId
            ⟨sectionConfig.templateSectionId, sectionConfig.templateSectionTitle,
              "[Generation failed: " ++ msg ++ ". Please edit manually.]", [], [msg]⟩,
          Action.statusUpdate "generating" (some p.section_mapping.length)
            (some st.sections.length)
            (some (processingLabel st.sections.length p.section_mapping.length))
            (st.errors ++ [⟨sectionConfig.templateSectionTitle, msg⟩]) none]) := by
  unfold processSection
  rw [h]

theorem processList_sections (env : RunEnv) (p : Project) (draftId : String)
    (items : List (Nat × SectionConfig)) : ∀ st : RunState,
    (processList env p draftId st items).1.sections = st.sections ++ recordsOf env p items := by
  induction items with
  | nil => intro st; simp [processList, recordsOf]
  | cons hd tl ih =>
    intro st
    obtain ⟨i, sectionConfig⟩ := hd
    simp only [processList]
    cases h : sectionRaced env p sectionConfig i with
    | ok r =>
      rw [processSection_ok env p draftId st sectionConfig i r h]
      simp only [ih]
      simp [recordsOf, h]
    | error m =>
      rw [processSection_err env p draftId st sectionConfig i m h]
      simp only [ih]
      simp [recordsOf, h]

theorem processList_errors (env : RunEnv) (p : Project) (draftId : String)
    (items : List (Nat × SectionConfig)) : ∀ st : RunState,
    (processList env p draftId st items).1.errors = st.errors ++ erroredOf env p items := by
  induction items with
  | nil => intro st; simp [processList, erroredOf]
  | cons hd tl ih =>
    intro st
    obtain ⟨i, sectionConfig⟩ := hd
    simp only [processList]
    cases h : sectionRaced env p sectionConfig i with
    | ok r =>
      rw [processSection_ok env p draftId st sectionConfig i r h]
      simp only [ih]
      simp [erroredOf, h]
    | error m =>
      rw [processSection_err env p draftId st sectionConfig i m h]
      simp only [ih]
      simp [erroredOf, h]

theorem processList_writes_count (env : RunEnv) (p : Project) (draftId : String)
    (items : List (Nat × SectionConfig)) : ∀ st : RunState,
    countSectionWrites (processList env p draftId st items).2 = items.length := by
  induction items with
  | nil => intro st; simp [processList, countSectionWrites]
  | cons hd tl ih =>
    intro st
    obtain ⟨i, sectionConfig⟩ := hd
    simp only [processList]
    have hc0 : List.countP (isSectionWrite ∘ fun prompt => Action.modelCall i prompt)
        (runSectionGeneration env p sectionConfig i).2 = 0 :=
      List.countP_eq_zero.mpr (fun a _ => by simp [isSectionWrite])
    have ih' : ∀ st : RunState,
        List.countP isSectionWrite (processList env p draftId st tl).2 = tl.length := ih
    cases h : sectionRaced env p sectionConfig i with
    | ok r =>
      rw [processSection_ok env p draftId st sectionConfig i r h]
      simp only [countSectionWrites, List.countP_append, List.countP_map, List.countP_cons,
        hc0, ih']
      simp [isSectionWrite]
      omega
    | error m =>
      rw [processSection_err env p draftId st sectionConfig i m h]
      simp only [countSectionWrites, List.countP_append, List.countP_map, List.countP_cons,
        hc0, ih']
      simp [isSectionWrite]
      omega

theorem processSection_sections_length (env : RunEnv) (p : Project) (draftId : String)
    (st : RunState) (sectionConfig : SectionConfig) (i : Nat) :
    (processSection env p draftId st sectionConfig i).1.sections.length ≤
      st.sections.length + 1 := by
  cases h : sectionRaced env p sectionConfig i with
  | ok r =>
    rw [processSection_ok env p draftId st sectionConfig i r h]
    simp
  | error m =>
    rw [processSection_err env p draftId st sectionConfig i m h]
    simp

theorem processSection_actions_shape (env : RunEnv) (p : Project) (draftId : String)
    (st : RunState) (sectionConfig : SectionConfig) (i : Nat)
    (hlen : st.sections.length + 1 ≤ p.section_mapping.length) :
    ∀ a ∈ (processSection env p draftId st sectionConfig i).2,
      isTerminalStatus a = false ∧ progressOk a = true ∧
        (∀ pid did s n errs, a ≠ Action.emit (.complete pid did s n errs)) := by
  intro a ha
  cases h : sectionRaced env p sectionConfig i with
  | ok r =>
    rw [processSection_ok env p draftId st sectionConfig i r h] at ha
    simp only [List.mem_append, List.mem_cons, List.mem_singleton, List.mem_map,
      List.not_mem_nil, or_false, false_or] at ha
    rcases ha with (rfl | ⟨x, _, rfl⟩) | rfl | rfl | rfl
    · exact ⟨rfl, rfl, fun pid did s n errs hne => by cases hne⟩
    · exact ⟨rfl, rfl, fun pid did s n errs hne => by cases hne⟩
    · exact ⟨rfl, rfl, fun pid did s n errs hne => by cases hne⟩
    · exact ⟨rfl, rfl, fun pid did s n errs hne => by cases hne⟩
    · refine ⟨rfl, ?_, fun pid did s n errs hne => by cases hne⟩
      simp only [progressOk, decide_eq_true_eq]
      omega
  | error m =>
    rw [processSection_err env p draftId st sectionConfig i m h] at ha
    simp only [List.mem_append, List.mem_cons, List.mem_singleton, List.mem_map,
      List.not_mem_nil, or_false, false_or] at ha
    rcases ha with (rfl | ⟨x, _, rfl⟩) | rfl | rfl | rfl
    · exact ⟨rfl, rfl, fun pid did s n errs hne => by cases hne⟩
    · exact ⟨rfl, rfl, fun pid did s n errs hne => by cases hne⟩
    · exact ⟨rfl, rfl, fun pid did s n errs hne => by cases hne⟩
    · exact ⟨rfl, rfl, fun pid did s n errs hne => by cases hne⟩
    · refine ⟨rfl, ?_, fun pid did s n errs hne => by cases hne⟩
      simp only [progressOk, decide_eq_true_eq]
      omega

theorem processList_body_shape (env : RunEnv) (p : Project) (draftId : String)
    (items : List (Nat × SectionConfig)) : ∀ st : RunState,
    st.sections.length + items.length ≤ p.section_mapping.length →
    ∀ a ∈ (processList env p draftId st items).2,
      isTerminalStatus a = false ∧ progressOk a = true ∧
        (∀ pid did s n errs, a ≠ Action.emit (.complete pid did s n errs)) := by
  induction items with
  | nil => intro st _ a ha; simp [processList] at ha
  | cons hd tl ih =>
    intro st hb a ha
    obtain ⟨i, sectionConfig⟩ := hd
    simp only [List.length_cons] at hb
    simp only [processList] at ha
    rcases List.mem_append.mp ha with ha | ha
    · exact processSection_actions_shape env p draftId st sectionConfig i (by omega) a ha
    · have hgrow := processSection_sections_length env p draftId st sectionConfig i
      exact ih _ (by omega) a ha

theorem processList_error_artifacts (env : RunEnv) (p : Project) (draftId : String)
    (items : List (Nat × SectionConfig)) : ∀ st : RunState,
    ∀ pair ∈ items, ∀ msg, sectionRaced env p pair.2 pair.1 = .error msg →
      Action.draftSectionWrite draftId
          ⟨pair.2.templateSectionId, pair.2.templateSectionTitle,
            "[Generation failed: " ++ msg ++ ". Please edit manually.]", [], [msg]⟩ ∈
        (processList env p draftId st items).2 ∧
      Action.emit (.error p.id (some pair.2.templateSectionTitle) msg true) ∈
        (processList env p draftId st items).2 := by
  induction items with
  | nil => intro st pair hpair; simp at hpair
  | cons hd tl ih =>
    intro st pair hpair msg hmsg
    obtain ⟨i, sectionConfig⟩ := hd
    simp only [processList]
    rcases List.mem_cons.mp hpair with hpair | hpair
    · subst hpair
      rw [processSection_err env p draftId st sectionConfig i msg hmsg]
      constructor
      · exact List.mem_append_left _ (by simp)
      · exact List.mem_append_left _ (by simp)
    · have := ih (processSection env p draftId st sectionConfig i).1 pair hpair msg hmsg
      exact ⟨List.mem_append_right _ this.1, List.mem_append_right _ this.2⟩

theorem writesAfterTerminal_append (xs ys : List Action)
    (hx : ∀ a ∈ xs, isTerminalStatus a = false) :
    writesAfterTerminal (xs ++ ys) = writesAfterTerminal ys := by
  induction xs with
  | nil => rfl
  | cons a xs ih =>
    simp only [List.cons_append, writesAfterTerminal]
    rw [hx a (by simp), if_neg (by simp)]
    exact ih (fun a ha => hx a (by simp [ha]))

theorem completeEvents_append (xs ys : List Action) :
    completeEvents (xs ++ ys) = completeEvents xs ++ completeEvents ys :=
  List.filterMap_append xs ys _

theorem completeEvents_eq_nil (xs : List Action)
    (hx : ∀ a ∈ xs, ∀ pid did s n errs, a ≠ Action.emit (.complete pid did s n errs)) :
    completeEvents xs = [] := by
  rw [completeEvents, List.filterMap_eq_nil_iff]
  intro a ha
  cases a with
  | emit e =>
    cases e with
    | complete pid did s n errs => exact absurd rfl (hx _ ha pid did s n errs)
    | progress _ _ _ _ => rfl
    | sectionComplete _ _ _ _ _ => rfl
    | error _ _ _ _ => rfl
  | statusUpdate _ _ _ _ _ _ => rfl
  | draftCreate _ => rfl
  | draftSectionWrite _ _ => rfl
  | draftReferencesWrite _ _ => rfl
  | modelCall _ _ => rfl

/-- The items of a run: the enumerated section mapping. -/
theorem runBatches_enum (env : RunEnv) (p : Project) (draftId : String) (st : RunState) :
    runBatches env p draftId st (chunksOf CONCURRENCY (enumFrom 0 p.section_mapping)) =
      processList env p draftId st (enumFrom 0 p.section_mapping) := by
  rw [runBatches_eq_processList, flatten_chunksOf]

theorem generateProjectContent_success (env : RunEnv) (p : Project) (draftId : String)
    (hc : env.createDraft = .ok draftId) (hr : env.updateReferences = .ok ()) :
    generateProjectContent env p =
      (.ok ⟨draftId, recordsOf env p (enumFrom 0 p.section_mapping),
          erroredOf env p (enumFrom 0 p.section_mapping),
          (processList env p draftId ⟨[], [], []⟩ (enumFrom 0 p.section_mapping)).1.warnings⟩,
        [Action.statusUpdate "generating" (some p.section_mapping.length) (some 0) none [] none,
          .draftCreate draftId] ++
          (processList env p draftId ⟨[], [], []⟩ (enumFrom 0 p.section_mapping)).2 ++
          [Action.draftReferencesWrite draftId (collectReferences p.documents),
            Action.statusUpdate "ready" (some p.section_mapping.length)
              (some p.section_mapping.length) none
              (erroredOf env p (enumFrom 0 p.section_mapping)) none,
            Action.emit (.complete p.id draftId "ready"
              (recordsOf env p (enumFrom 0 p.section_mapping)).length
              (erroredOf env p (enumFrom 0 p.section_mapping)))]) := by
  unfold generateProjectContent
  rw [hc, hr]
  simp only [runBatches_enum]
  have hsec := processList_sections env p draftId (enumFrom 0 p.section_mapping) ⟨[], [], []⟩
  have herr := processList_errors env p draftId (enumFrom 0 p.section_mapping) ⟨[], [], []⟩
  simp only [List.nil_append] at hsec herr
  rw [hsec, herr]

/-- Claim C1: during a run in which only per-section exceptions occur (draft
creation and reference persistence succeed), every per-section exception is
caught locally — the `{section, error}` pair is appended to the run's error
list, the placeholder `"[Generation failed: <message>. Please edit
manually.]"` is written into the draft for that section, an `error` event
with `recoverable: true` is emitted — and all sections are still processed
(one draft-section write per mapping entry), so the project status still
reaches `ready`. -/
theorem C1_per_section_errors_recovered (env : RunEnv) (p : Project) (draftId : String)
    (hc : env.createDraft = .ok draftId) (hr : env.updateReferences = .ok ()) :
    (generateProjectContent env p).1.isOk = true ∧
    Action.statusUpdate "ready" (some p.section_mapping.length)
        (some p.section_mapping.length) none
        (erroredOf env p (enumFrom 0 p.section_mapping)) none ∈
      (generateProjectContent env p).2 ∧
    countSectionWrites (generateProjectContent env p).2 = p.section_mapping.length ∧
    (∀ r, (generateProjectContent env p).1 = .ok r →
      r.errors = erroredOf env p (enumFrom 0 p.section_mapping)) ∧
    (∀ pair ∈ enumFrom 0 p.section_mapping, ∀ msg,
      sectionRaced env p pair.2 pair.1 = .error msg →
        (⟨pair.2.templateSectionTitle, msg⟩ : SectionError) ∈
            erroredOf env p (enumFrom 0 p.section_mapping) ∧
          Action.draftSectionWrite draftId
              ⟨pair.2.templateSectionId, pair.2.templateSectionTitle,
                "[Generation failed: " ++ msg ++ ". Please edit manually.]", [], [msg]⟩ ∈
            (generateProjectContent env p).2 ∧
          Action.emit (.error p.id (some pair.2.templateSectionTitle) msg true) ∈
            (generateProjectContent env p).2) := by
  rw [generateProjectContent_success env p draftId hc hr]
  refine ⟨rfl, ?_, ?_, ?_, ?_⟩
  · simp
  · have hbody := processList_writes_count env p draftId (enumFrom 0 p.section_mapping)
      ⟨[], [], []⟩
    simp only [countSectionWrites, List.countP_append, List.countP_cons] at hbody ⊢
    rw [hbody, enumFrom_length]
    simp [isSectionWrite]
  · intro r hre
    injection hre with h2
    rw [← h2]
  · intro pair hpair msg hmsg
    have hart := processList_error_artifacts env p draftId (enumFrom 0 p.section_mapping)
      ⟨[], [], []⟩ pair hpair msg hmsg
    refine ⟨List.mem_filterMap.mpr ⟨pair, hpair, by simp [hmsg]⟩, ?_, ?_⟩
    · exact List.mem_append_left _ (List.mem_append_right _ hart.1)
    · exact List.mem_append_left _ (List.mem_append_right _ hart.2)

theorem C1_witness :
    (generateProjectContent
        ⟨fun i => if i = 0 then .error "boom" else .ok "Generated content.",
          fun _ => some 0, .ok "draft-1", .ok ()⟩
        ⟨"p1", "single", "summary",
          [⟨"d1", "f1", some ⟨[], some (String.mk (List.replicate 60 'a'))⟩, [], none, []⟩],
          [⟨"s1", "Intro", ⟨none, []⟩, none, none⟩, ⟨"s2", "Body", ⟨none, []⟩, none, none⟩],
          none⟩).1.isOk = true :=
  (C1_per_section_errors_recovered
    ⟨fun i => if i = 0 then .error "boom" else .ok "Generated content.",
      fun _ => some 0, .ok "draft-1", .ok ()⟩
    ⟨"p1", "single", "summary",
      [⟨"d1", "f1", some ⟨[], some (String.mk (List.replicate 60 'a'))⟩, [], none, []⟩],
      [⟨"s1", "Intro", ⟨none, []⟩, none, none⟩, ⟨"s2", "Body", ⟨none, []⟩, none, none⟩],
      none⟩
    "draft-1" rfl rfl).1

/-- Claim C2 (amended): the final `complete` event carries the draft id and
the accumulated error list, but its sections count (`sectionsGenerated`) is
the number of sections processed *without error* — not the mapping length L
when failures occurred (see the counterexample).  The value L is instead
reported as `completedSections` of the final persisted `ready` progress
update, regardless of how many sections failed. -/
theorem C2_complete_event_contents (env : RunEnv) (p : Project) (draftId : String)
    (hc : env.createDraft = .ok draftId) (hr : env.updateReferences = .ok ()) :
    completeEvents (generateProjectContent env p).2 =
      [.complete p.id draftId "ready"
        (recordsOf env p (enumFrom 0 p.section_mapping)).length
        (erroredOf env p (enumFrom 0 p.section_mapping))] ∧
    Action.statusUpdate "ready" (some p.section_mapping.length)
        (some p.section_mapping.length) none
        (erroredOf env p (enumFrom 0 p.section_mapping)) none ∈
      (generateProjectContent env p).2 := by
  rw [generateProjectContent_success env p draftId hc hr]
  constructor
  · have hbody := processList_body_shape env p draftId (enumFrom 0 p.section_mapping)
      ⟨[], [], []⟩ (by rw [enumFrom_length]; simp)
    rw [completeEvents_append, completeEvents_append,
      completeEvents_eq_nil _ (fun a ha => (hbody a ha).2.2)]
    rfl
  · simp

theorem C2_counterexample :
    completeEvents (generateProjectContent
        ⟨fun _ => .error "boom", fun _ => some 0, .ok "draft-1", .ok ()⟩
        ⟨"p1", "single", "summary",
          [⟨"d1", "f1", some ⟨[], some (String.mk (List.replicate 60 'a'))⟩, [], none, []⟩],
          [⟨"s1", "Intro", ⟨none, []⟩, none, none⟩], none⟩).2 =
      [.complete "p1" "draft-1" "ready" 0 [⟨"Intro", "boom"⟩]] ∧
    ([⟨"s1", "Intro", ⟨none, []⟩, none, none⟩] : List SectionConfig).length = 1 := by
  rw [generateProjectContent_success _ _ "draft-1" rfl rfl]
  exact ⟨rfl, rfl⟩

theorem C2_witness :
    completeEvents (generateProjectContent
        ⟨fun i => if i = 0 then .error "boom" else .ok "Generated content.",
          fun _ => some 0, .ok "draft-1", .ok ()⟩
        ⟨"p1", "single", "summary",
          [⟨"d1", "f1", some ⟨[], some (String.mk (List.replicate 60 'a'))⟩, [], none, []⟩],
          [⟨"s1", "Intro", ⟨none, []⟩, none, none⟩, ⟨"s2", "Body", ⟨none, []⟩, none, none⟩],
          none⟩).2 =
      [.complete "p1" "draft-1" "ready" 1 [⟨"Intro", "boom"⟩]] :=
  ((C2_complete_event_contents
    ⟨fun i => if i = 0 then .error "boom" else .ok "Generated content.",
      fun _ => some 0, .ok "draft-1", .ok ()⟩
    ⟨"p1", "single", "summary",
      [⟨"d1", "f1", some ⟨[], some (String.mk (List.replicate 60 'a'))⟩, [], none, []⟩],
      [⟨"s1", "Intro", ⟨none, []⟩, none, none⟩, ⟨"s2", "Body", ⟨none, []⟩, none, none⟩],
      none⟩ "draft-1" rfl rfl).1).trans (by rfl)

/-- Claim C3 (amended): if an exception escapes the run from inside the
orchestrator's try block — e.g. a failure while persisting the aggregated
references — the project status is rolled back to `draft` with the error
message attached, a top-level `error` event with `recoverable: false` is
emitted, and the exception is re-raised to the caller.  A draft-creation
failure, however, happens *before* the try block: it is re-raised to the
caller with no rollback and no error event (see the counterexample), the
status remaining `generating`. -/
theorem C3_in_try_failure_rolls_back (env : RunEnv) (p : Project) (draftId e : String)
    (hc : env.createDraft = .ok draftId) (hr : env.updateReferences = .error e) :
    (generateProjectContent env p).1 = .error e ∧
    Action.statusUpdate "draft" none none none [] (some e) ∈
      (generateProjectContent env p).2 ∧
    Action.emit (.error p.id none e false) ∈ (generateProjectContent env p).2 := by
  unfold generateProjectContent
  rw [hc, hr]
  refine ⟨rfl, ?_, ?_⟩ <;> simp

theorem C3_witness :
    (generateProjectContent
        ⟨fun _ => .ok "ok", fun _ => some 0, .ok "draft-1", .error "refs write failed"⟩
        ⟨"p1", "single", "summary", [], [], none⟩).1 = .error "refs write failed" :=
  (C3_in_try_failure_rolls_back
    ⟨fun _ => .ok "ok", fun _ => some 0, .ok "draft-1", .error "refs write failed"⟩
    ⟨"p1", "single", "summary", [], [], none⟩ "draft-1" "refs write failed" rfl rfl).1

/-- Claim C3 counterexample: when draft creation itself fails, the exception
is re-raised but the whole trace is the single initial `generating` status
update — there is no rollback to `draft` and no error event at all, contrary
to the claim's "including a failure of draft creation". -/
theorem C3_counterexample :
    generateProjectContent
        ⟨fun _ => .ok "ok", fun _ => some 0, .error "db down", .ok ()⟩
        ⟨"p1", "single", "summary", [], [], none⟩ =
      (.error "db down",
        [Action.statusUpdate "generating" (some 0) (some 0) none [] none]) ∧
    isTerminalStatus (Action.statusUpdate "generating" (some 0) (some 0) none [] none) =
      false ∧
    (∀ pid t m rec, Action.statusUpdate "generating" (some 0) (some 0) none [] none ≠
      Action.emit (.error pid t m rec)) :=
  ⟨rfl, rfl, fun _ _ _ _ h => Action.noConfusion h⟩

/-- Claim C9: every persisted progress update of every run satisfies
`completedSections ≤ totalSections`, and no draft-section write occurs after
the first terminal status update (`ready`, or the rollback to `draft`) of
the run's trace — in particular a model call abandoned by the per-section
timeout contributes no write at all, its settlement being ignored by the
race. -/
theorem C9_progress_bound_and_no_writes_after_terminal (env : RunEnv) (p : Project) :
    (generateProjectContent env p).2.all progressOk = true ∧
    writesAfterTerminal (generateProjectContent env p).2 = 0 := by
  cases hcd : env.createDraft with
  | error e =>
    unfold generateProjectContent
    rw [hcd]
    exact ⟨by simp [progressOk], rfl⟩
  | ok draftId =>
    have hbody := processList_body_shape env p draftId (enumFrom 0 p.section_mapping)
      ⟨[], [], []⟩ (by rw [enumFrom_length]; simp)
    cases hur : env.updateReferences with
    | error e =>
      unfold generateProjectContent
      rw [hcd, hur]
      simp only [runBatches_enum]
      constructor
      · rw [List.all_eq_true]
        intro a ha
        simp only [List.append_assoc, List.mem_append, List.mem_cons,
          List.mem_singleton, List.not_mem_nil, or_false] at ha
        rcases ha with (rfl | rfl) | ha | rfl | rfl
        · simp [progressOk]
        · rfl
        · exact (hbody a ha).2.1
        · rfl
        · rfl
      · rw [List.append_assoc,
          writesAfterTerminal_append _ _ (by
            intro a ha
            rcases List.mem_pair.mp ha with rfl | rfl
            · rfl
            · rfl),
          writesAfterTerminal_append _ _ (fun a ha => (hbody a ha).1)]
        rfl
    | ok u =>
      unfold generateProjectContent
      rw [hcd, hur]
      simp only [runBatches_enum]
      constructor
      · rw [List.all_eq_true]
        intro a ha
        simp only [List.append_assoc, List.mem_append, List.mem_cons,
          List.mem_singleton, List.not_mem_nil, or_false] at ha
        rcases ha with (rfl | rfl) | ha | rfl | rfl | rfl
        · simp [progressOk]
        · rfl
        · exact (hbody a ha).2.1
        · rfl
        · simp [progressOk]
        · rfl
      · rw [List.append_assoc,
          writesAfterTerminal_append _ _ (by
            intro a ha
            rcases List.mem_pair.mp ha with rfl | rfl
            · rfl
            · rfl),
          writesAfterTerminal_append _ _ (fun a ha => (hbody a ha).1)]
        rfl

/-! ## Schedule lemmas (batching, ordering, concurrency bound) -/

theorem chunksOf_length_le (k : Nat) (hk : 0 < k) (l : List α) :
    ∀ b ∈ chunksOf k l, b.length ≤ k := by
  generalize hn : l.length = n
  induction n using Nat.strong_induction_on generalizing l with
  | _ n ih =>
    cases l with
    | nil => intro b hb; simp [chunksOf] at hb
    | cons x xs =>
      intro b hb
      rw [chunksOf] at hb
      rcases List.mem_cons.mp hb with rfl | hb
      · simp only [List.length_cons, List.length_take]
        omega
      · have hlt : (xs.drop (k - 1)).length < n := by
          rw [List.length_drop]
          simp only [List.length_cons] at hn
          omega
        exact ih _ hlt _ rfl b hb

theorem countStarts_map_start (l : List Nat) :
    countStarts (l.map SchedEvent.start) = l.length := by
  simp [countStarts, List.countP_map, Function.comp]

theorem countStarts_map_finish (l : List Nat) :
    countStarts (l.map SchedEvent.finish) = 0 := by
  simp [countStarts, List.countP_map, Function.comp]

theorem countFinishes_map_start (l : List Nat) :
    countFinishes (l.map SchedEvent.start) = 0 := by
  simp [countFinishes, List.countP_map, Function.comp]

theorem countFinishes_map_finish (l : List Nat) :
    countFinishes (l.map SchedEvent.finish) = l.length := by
  simp [countFinishes, List.countP_map, Function.comp]

theorem countStarts_append (xs ys : List SchedEvent) :
    countStarts (xs ++ ys) = countStarts xs + countStarts ys :=
  List.countP_append _ xs ys

theorem countFinishes_append (xs ys : List SchedEvent) :
    countFinishes (xs ++ ys) = countFinishes xs + countFinishes ys :=
  List.countP_append _ xs ys

theorem sched_count_bound (sigma : List Nat → List Nat) (B : List (List Nat))
    (hlen : ∀ b ∈ B, b.length ≤ CONCURRENCY)
    (hslen : ∀ b, (sigma b).length = b.length) : ∀ n : Nat,
    countStarts ((B.flatMap
        (fun b => b.map SchedEvent.start ++ (sigma b).map SchedEvent.finish)).take n) ≤
      countFinishes ((B.flatMap
        (fun b => b.map SchedEvent.start ++ (sigma b).map SchedEvent.finish)).take n) +
        CONCURRENCY := by
  induction B with
  | nil => intro n; simp [countStarts, countFinishes, CONCURRENCY]
  | cons b B ih =>
    intro n
    rw [List.flatMap_cons, List.take_append_eq_append_take, countStarts_append,
      countFinishes_append]
    rcases le_or_lt n (b.map SchedEvent.start ++ (sigma b).map SchedEvent.finish).length
      with hn | hn
    · have h0 : n - (b.map SchedEvent.start ++ (sigma b).map SchedEvent.finish).length = 0 :=
        Nat.sub_eq_zero_of_le hn
      rw [h0]
      simp only [List.take_zero, countStarts, countFinishes, List.countP_nil, Nat.add_zero]
      have hseg : List.countP
          (fun e => match e with | .start _ => true | .finish _ => false)
          ((b.map SchedEvent.start ++ (sigma b).map SchedEvent.finish).take n) ≤
            CONCURRENCY := by
        calc List.countP _ ((b.map SchedEvent.start ++ (sigma b).map SchedEvent.finish).take n)
            ≤ List.countP (fun e => match e with | .start _ => true | .finish _ => false)
              (b.map SchedEvent.start ++ (sigma b).map SchedEvent.finish) :=
              (List.take_sublist _ _).countP_le _
          _ = b.length := by
              rw [List.countP_append]
              have h1 := countStarts_map_start b
              have h2 := countStarts_map_finish (sigma b)
              simp only [countStarts] at h1 h2
              rw [h1, h2, Nat.add_zero]
          _ ≤ CONCURRENCY := hlen b (by simp)
      exact le_trans hseg (Nat.le_add_left _ _)
    · rw [List.take_of_length_le (le_of_lt hn)]
      rw [countStarts_append, countFinishes_append, countStarts_map_start,
        countStarts_map_finish, countFinishes_map_start, countFinishes_map_finish, hslen]
      have := ih (fun b hb => hlen b (by simp [hb]))
        (n - (b.map SchedEvent.start ++ (sigma b).map SchedEvent.finish).length)
      omega

theorem batchIndices_disjoint (L : Nat) :
    List.Pairwise List.Disjoint (batchIndices L) := by
  have hnd : (batchIndices L).flatten.Nodup := by
    rw [batchIndices, flatten_chunksOf]
    exact List.nodup_range L
  exact (List.nodup_flatten.mp hnd).2

theorem mem_take_exists_get {B : List (List Nat)} {b : List Nat} {m : Nat}
    (hb : b ∈ B.take m) :
    ∃ k : Fin B.length, (k : Nat) < m ∧ B.get k = b := by
  rcases List.mem_iff_get.mp hb with ⟨k, hk⟩
  have hklt : (k : Nat) < B.length := by
    have := k.isLt
    simp only [List.length_take] at this
    omega
  have hkm : (k : Nat) < m := by
    have := k.isLt
    simp only [List.length_take] at this
    omega
  refine ⟨⟨k, hklt⟩, hkm, ?_⟩
  rw [List.get_take B hklt hkm]
  exact hk

theorem schedule_split (sigma : List Nat → List Nat) (L m : Nat) :
    scheduleOf sigma L =
      ((batchIndices L).take m).flatMap
          (fun b => b.map SchedEvent.start ++ (sigma b).map SchedEvent.finish) ++
        ((batchIndices L).drop m).flatMap
          (fun b => b.map SchedEvent.start ++ (sigma b).map SchedEvent.finish) := by
  rw [scheduleOf, ← List.flatMap_append, List.take_append_drop]

theorem schedule_ordering (sigma : List Nat → List Nat)
    (hsigma : ∀ b, (sigma b).Perm b) (L : Nat)
    (bi bj : Fin (batchIndices L).length) (hij : (bi : Nat) < (bj : Nat))
    (i j : Nat) (hi : i ∈ (batchIndices L).get bi) (hj : j ∈ (batchIndices L).get bj) :
    ∃ n, SchedEvent.start i ∈ (scheduleOf sigma L).take n ∧
      SchedEvent.finish i ∈ (scheduleOf sigma L).take n ∧
      SchedEvent.start j ∉ (scheduleOf sigma L).take n := by
  classical
  refine ⟨(((batchIndices L).take ((bi : Nat) + 1)).flatMap
    (fun b => b.map SchedEvent.start ++ (sigma b).map SchedEvent.finish)).length, ?_, ?_, ?_⟩
  all_goals rw [schedule_split sigma L ((bi : Nat) + 1), List.take_left]
  · refine List.mem_flatMap.mpr ⟨(batchIndices L).get bi, ?_, ?_⟩
    · have hget : ((batchIndices L).take ((bi : Nat) + 1)).get
          ⟨(bi : Nat), by
            have := bi.isLt
            simp only [List.length_take]
            omega⟩ = (batchIndices L).get bi :=
        (List.get_take (batchIndices L) bi.isLt (Nat.lt_succ_self _)).symm
      rw [← hget]
      exact List.get_mem _ _ _
    · exact List.mem_append_left _ (List.mem_map.mpr ⟨i, hi, rfl⟩)
  · refine List.mem_flatMap.mpr ⟨(batchIndices L).get bi, ?_, ?_⟩
    · have hget : ((batchIndices L).take ((bi : Nat) + 1)).get
          ⟨(bi : Nat), by
            have := bi.isLt
            simp only [List.length_take]
            omega⟩ = (batchIndices L).get bi :=
        (List.get_take (batchIndices L) bi.isLt (Nat.lt_succ_self _)).symm
      rw [← hget]
      exact List.get_mem _ _ _
    · exact List.mem_append_right _
        (List.mem_map.mpr ⟨i, ((hsigma ((batchIndices L).get bi)).mem_iff).mpr hi, rfl⟩)
  · intro hmem
    rcases List.mem_flatMap.mp hmem with ⟨b, hbmem, hbin⟩
    have hjb : j ∈ b := by
      rcases List.mem_append.mp hbin with hbin | hbin
      · rcases List.mem_map.mp hbin with ⟨x, hx, hxe⟩
        cases hxe
        exact hx
      · rcases List.mem_map.mp hbin with ⟨x, hx, hxe⟩
        cases hxe
    rcases mem_take_exists_get hbmem with ⟨k, hkm, hkget⟩
    have hkbj : (k : Nat) < (bj : Nat) := by omega
    have hdisj : List.Disjoint ((batchIndices L).get k) ((batchIndices L).get bj) :=
      (List.pairwise_iff_get.mp (batchIndices_disjoint L)) k bj hkbj
    exact hdisj (hkget ▸ hjb) hj

/-- Claim C5: the orchestrator partitions the enumerated section mapping
into consecutive batches of size `CONCURRENCY = 3` in original mapping
order (their concatenation is exactly `0, ..., L-1` and each batch holds at
most 3 indices); in the run's start/finish schedule — for any within-batch
completion order — every section of an earlier batch both starts and
finishes before any section of a later batch starts; and at every point of
the schedule at most `CONCURRENCY = 3` sections are in flight. -/
theorem C5_batching_ordering_and_concurrency_bound (L : Nat)
    (sigma : List Nat → List Nat) (hsigma : ∀ b, (sigma b).Perm b) :
    (batchIndices L).flatten = List.range L ∧
    (∀ b ∈ batchIndices L, b.length ≤ CONCURRENCY) ∧
    (∀ (bi bj : Fin (batchIndices L).length), (bi : Nat) < (bj : Nat) →
      ∀ i ∈ (batchIndices L).get bi, ∀ j ∈ (batchIndices L).get bj,
        ∃ n, SchedEvent.start i ∈ (scheduleOf sigma L).take n ∧
          SchedEvent.finish i ∈ (scheduleOf sigma L).take n ∧
          SchedEvent.start j ∉ (scheduleOf sigma L).take n) ∧
    (∀ n, countStarts ((scheduleOf sigma L).take n) ≤
      countFinishes ((scheduleOf sigma L).take n) + CONCURRENCY) := by
  refine ⟨by rw [batchIndices, flatten_chunksOf],
    chunksOf_length_le CONCURRENCY (by decide) _, ?_, ?_⟩
  · intro bi bj hij i hi j hj
    exact schedule_ordering sigma hsigma L bi bj hij i j hi hj
  · intro n
    exact sched_count_bound sigma (batchIndices L)
      (chunksOf_length_le CONCURRENCY (by decide) _)
      (fun b => (hsigma b).length_eq) n

theorem C5_witness :
    ((batchIndices 7).flatten = List.range 7 ∧
      (∀ b ∈ batchIndices 7, b.length ≤ CONCURRENCY) ∧
      (∀ (bi bj : Fin (batchIndices 7).length), (bi : Nat) < (bj : Nat) →
        ∀ i ∈ (batchIndices 7).get bi, ∀ j ∈ (batchIndices 7).get bj,
          ∃ n, SchedEvent.start i ∈ (scheduleOf List.reverse 7).take n ∧
            SchedEvent.finish i ∈ (scheduleOf List.reverse 7).take n ∧
            SchedEvent.start j ∉ (scheduleOf List.reverse 7).take n) ∧
      (∀ n, countStarts ((scheduleOf List.reverse 7).take n) ≤
        countFinishes ((scheduleOf List.reverse 7).take n) + CONCURRENCY)) :=
  C5_batching_ordering_and_concurrency_bound 7 List.reverse
    (fun b => List.reverse_perm b)

/-! ## Timeout lemmas -/

theorem generateSingleDocSection_calls (model : Prompt → Except String String)
    (sectionConfig : SectionConfig) (document : SourceDocument) (purpose : String)
    (globalInstructions : Option String) :
    (generateSingleDocSection model sectionConfig document purpose globalInstructions).2 =
      if (jsTrim (extractSourceContent document
          sectionConfig.sourceMapping.sourceSections)).length < 50 then []
      else [Prompt.sectionRewrite sectionConfig.templateSectionTitle
        (truncateForContext (extractSourceContent document
          sectionConfig.sourceMapping.sourceSections) 100000).1
        sectionConfig.instructions globalInstructions sectionConfig.targetLength purpose] := by
  unfold generateSingleDocSection
  simp only []
  split
  · rfl
  · split <;> rfl

theorem generateMultiDocSection_calls (model : Prompt → Except String String)
    (sectionConfig : SectionConfig) (documents : List SourceDocument) (purpose : String)
    (globalInstructions : Option String) :
    (generateMultiDocSection model sectionConfig documents purpose globalInstructions).2 =
      (if (((if sectionConfig.sourceMapping.sourceDocuments.contains "all" then documents
          else documents.filter
            (fun d => sectionConfig.sourceMapping.sourceDocuments.contains d.id)).map
          (fun doc => DocContent.mk (doc.metadataTitle.getD doc.filename) doc.metadataAuthors
            (extractSourceContent doc sectionConfig.sourceMapping.sourceSections))).filter
          (fun d => d.content.length > 50)).length = 0 then []
      else [if purpose = "comparative" then
          Prompt.comparative sectionConfig.templateSectionTitle
            (((if sectionConfig.sourceMapping.sourceDocuments.contains "all" then documents
              else documents.filter
                (fun d => sectionConfig.sourceMapping.sourceDocuments.contains d.id)).map
              (fun doc => DocContent.mk (doc.metadataTitle.getD doc.filename)
                doc.metadataAuthors
                (extractSourceContent doc sectionConfig.sourceMapping.sourceSections))).filter
              (fun d => d.content.length > 50))
            sectionConfig.instructions globalInstructions
        else
          Prompt.multiDocSynthesis sectionConfig.templateSectionTitle
            (((if sectionConfig.sourceMapping.sourceDocuments.contains "all" then documents
              else documents.filter
                (fun d => sectionConfig.sourceMapping.sourceDocuments.contains d.id)).map
              (fun doc => DocContent.mk (doc.metadataTitle.getD doc.filename)
                doc.metadataAuthors
                (extractSourceContent doc sectionConfig.sourceMapping.sourceSections))).filter
              (fun d => d.content.length > 50))
            sectionConfig.instructions globalInstructions sectionConfig.targetLength
            purpose]) := by
  unfold generateMultiDocSection
  simp only []
  split_ifs
  all_goals first
    | rfl
    | (split <;> rfl)

theorem runSectionGeneration_calls_congr (env1 env2 : RunEnv) (p : Project)
    (sectionConfig : SectionConfig) (i : Nat) :
    (runSectionGeneration env1 p sectionConfig i).2 =
      (runSectionGeneration env2 p sectionConfig i).2 := by
  unfold runSectionGeneration
  split
  · split
    · rfl
    · rw [generateSingleDocSection_calls, generateSingleDocSection_calls]
  · rw [generateMultiDocSection_calls, generateMultiDocSection_calls]

theorem sectionDuration_congr (env1 env2 : RunEnv) (p : Project) (pair : Nat × SectionConfig)
    (h : env1.settleTime pair.1 = env2.settleTime pair.1) :
    sectionDuration env1 p pair = sectionDuration env2 p pair := by
  unfold sectionDuration
  rw [runSectionGeneration_calls_congr env1 env2, h]

theorem sectionDuration_le_TIMEOUT (env : RunEnv) (p : Project) (pair : Nat × SectionConfig) :
    sectionDuration env p pair ≤ TIMEOUT := by
  unfold sectionDuration
  split
  · exact Nat.zero_le _
  · cases env.settleTime pair.1 with
    | none => exact le_refl _
    | some t => exact Nat.min_le_right _ _

theorem batchDuration_congr (env1 env2 : RunEnv) (p : Project)
    (batch : List (Nat × SectionConfig))
    (h : ∀ pair ∈ batch, env1.settleTime pair.1 = env2.settleTime pair.1) :
    batchDuration env1 p batch = batchDuration env2 p batch := by
  unfold batchDuration
  congr 1
  exact List.map_congr_left (fun pair hp => sectionDuration_congr env1 env2 p pair (h pair hp))

theorem batchDuration_le_TIMEOUT (env : RunEnv) (p : Project)
    (batch : List (Nat × SectionConfig)) :
    batchDuration env p batch ≤ TIMEOUT := by
  unfold batchDuration
  induction batch with
  | nil => simp [TIMEOUT]
  | cons pair rest ih =>
    simp only [List.map_cons, List.foldr_cons]
    exact max_le (sectionDuration_le_TIMEOUT env p pair) ih

theorem sectionFinishTime_congr (env1 env2 : RunEnv) (p : Project)
    (earlierBatches : List (List (Nat × SectionConfig))) (pair : Nat × SectionConfig)
    (hearlier : ∀ q ∈ earlierBatches.flatten, env1.settleTime q.1 = env2.settleTime q.1)
    (hown : env1.settleTime pair.1 = env2.settleTime pair.1) :
    sectionFinishTime env1 p earlierBatches pair =
      sectionFinishTime env2 p earlierBatches pair := by
  unfold sectionFinishTime
  rw [sectionDuration_congr env1 env2 p pair hown]
  congr 1
  congr 1
  refine List.map_congr_left (fun b hb => ?_)
  refine batchDuration_congr env1 env2 p b (fun q hq => ?_)
  exact hearlier q (List.mem_flatten.mpr ⟨b, hb, hq⟩)

theorem sectionRaced_timeout (env : RunEnv) (p : Project) (sectionConfig : SectionConfig)
    (i : Nat) (hcall : (runSectionGeneration env p sectionConfig i).2 ≠ [])
    (ht : env.settleTime i = none ∨ ∃ t, env.settleTime i = some t ∧ TIMEOUT ≤ t) :
    sectionRaced env p sectionConfig i = .error "Generation timed out" := by
  unfold sectionRaced
  simp only []
  rw [if_neg (by simpa [List.isEmpty_iff] using hcall)]
  rcases ht with h | ⟨t, h, hle⟩
  · rw [h]
  · rw [h]
    exact if_neg (by omega)

/-- Claim C4: a section whose model call is still unsettled when the
5-minute (300,000 ms) timer fires is treated as failed with error
"Generation timed out": the error is recorded in the run's error list, the
placeholder is written to the draft, and a recoverable error event is
emitted.  The in-flight model call is not cancelled — the call is still in
the trace — and its eventual settlement is ignored: the section's whole
outcome is unchanged under any change of the call's eventual result
(`respond`) as long as the settle time is unchanged.  Siblings in the same
batch are not blocked beyond their own completion: a section's finish time
depends only on its own duration and on the durations of strictly earlier
batches, every section's duration is capped at `TIMEOUT`, and hence a batch
delays its successor by at most `TIMEOUT` even when a call hangs forever. -/
theorem C4_timeout_section_fails_others_unblocked (env env' : RunEnv) (p : Project)
    (sectionConfig : SectionConfig) (i : Nat) (st : RunState) (draftId : String)
    (hcall : (runSectionGeneration env p sectionConfig i).2 ≠ [])
    (ht : env.settleTime i = none ∨ ∃ t, env.settleTime i = some t ∧ TIMEOUT ≤ t)
    (hsettle : env'.settleTime = env.settleTime) :
    sectionRaced env p sectionConfig i = .error "Generation timed out" ∧
    (processSection env p draftId st sectionConfig i).1.errors =
      st.errors ++ [⟨sectionConfig.templateSectionTitle, "Generation timed out"⟩] ∧
    Action.draftSectionWrite draftId
        ⟨sectionConfig.templateSectionId, sectionConfig.templateSectionTitle,
          "[Generation failed: Generation timed out. Please edit manually.]", [],
          ["Generation timed out"]⟩ ∈
      (processSection env p draftId st sectionConfig i).2 ∧
    Action.emit (.error p.id (some sectionConfig.templateSectionTitle)
        "Generation timed out" true) ∈
      (processSection env p draftId st sectionConfig i).2 ∧
    (∃ prompt, Action.modelCall i prompt ∈ (processSection env p draftId st sectionConfig i).2) ∧
    processSection env' p draftId st sectionConfig i =
      processSection env p draftId st sectionConfig i ∧
    sectionDuration env p (i, sectionConfig) = TIMEOUT ∧
    (∀ (earlierBatches : List (List (Nat × SectionConfig))) (pair : Nat × SectionConfig),
      (∀ q ∈ earlierBatches.flatten, env'.settleTime q.1 = env.settleTime q.1) →
      env'.settleTime pair.1 = env.settleTime pair.1 →
      sectionFinishTime env' p earlierBatches pair =
        sectionFinishTime env p earlierBatches pair) ∧
    (∀ batch : List (Nat × SectionConfig), batchDuration env p batch ≤ TIMEOUT) := by
  have hraced := sectionRaced_timeout env p sectionConfig i hcall ht
  have hcall' : (runSectionGeneration env' p sectionConfig i).2 ≠ [] := by
    rw [runSectionGeneration_calls_congr env' env]
    exact hcall
  have hraced' : sectionRaced env' p sectionConfig i = .error "Generation timed out" :=
    sectionRaced_timeout env' p sectionConfig i hcall'
      (by rw [hsettle]; exact ht)
  refine ⟨hraced, ?_, ?_, ?_, ?_, ?_, ?_, ?_, ?_⟩
  · rw [processSection_err env p draftId st sectionConfig i _ hraced]
  · rw [processSection_err env p draftId st sectionConfig i _ hraced]
    simp
  · rw [processSection_err env p draftId st sectionConfig i _ hraced]
    simp
  · rw [processSection_err env p draftId st sectionConfig i _ hraced]
    rcases List.exists_mem_of_ne_nil _ hcall with ⟨prompt, hp⟩
    exact ⟨prompt, by
      refine List.mem_append_left _ (List.mem_append_right _ ?_)
      exact List.mem_map.mpr ⟨prompt, hp, rfl⟩⟩
  · rw [processSection_err env p draftId st sectionConfig i _ hraced,
      processSection_err env' p draftId st sectionConfig i _ hraced',
      runSectionGeneration_calls_congr env' env]
  · unfold sectionDuration
    rw [if_neg (by simpa [List.isEmpty_iff] using hcall)]
    rcases ht with h | ⟨t, h, hle⟩
    · rw [h]
    · rw [h]
      simp only []
      omega
  · intro earlierBatches pair hearlier hown
    exact sectionFinishTime_congr env' env p earlierBatches pair hearlier hown
  · intro batch
    exact batchDuration_le_TIMEOUT env p batch

theorem C4_witness :
    sectionRaced
        ⟨fun _ => .ok "never delivered", fun _ => none, .ok "draft-1", .ok ()⟩
        ⟨"p1", "single", "summary",
          [⟨"d1", "f1", some ⟨[], some (String.mk (List.replicate 60 'a'))⟩, [], none, []⟩],
          [⟨"s1", "Intro", ⟨none, []⟩, none, none⟩], none⟩
        ⟨"s1", "Intro", ⟨none, []⟩, none, none⟩ 0 = .error "Generation timed out" :=
  (C4_timeout_section_fails_others_unblocked
    ⟨fun _ => .ok "never delivered", fun _ => none, .ok "draft-1", .ok ()⟩
    ⟨fun _ => .error "late failure ignored", fun _ => none, .ok "draft-1", .ok ()⟩
    ⟨"p1", "single", "summary",
      [⟨"d1", "f1", some ⟨[], some (String.mk (List.replicate 60 'a'))⟩, [], none, []⟩],
      [⟨"s1", "Intro", ⟨none, []⟩, none, none⟩], none⟩
    ⟨"s1", "Intro", ⟨none, []⟩, none, none⟩ 0 ⟨[], [], []⟩ "draft-1"
    (by decide) (Or.inl rfl) rfl).1

end GenService
